import Mathlib

/-!
Verification of the `btheadset` tool (btheadset/btheadset.py): a shallow
embedding of its orchestration logic in Lean 4, with theorems settling the
frozen claims about the natural-language specification.

Modelling conventions:
  * Each external subprocess invocation is represented by its observable
    request (`Call`) and the text or exit status the environment returns for
    it (a `World` oracle).  The code is single-threaded and fully sequential,
    so every function is embedded as a pure function from its inputs and the
    oracle to an `Except` result plus the list of calls it issued.
  * Python's `in` operator on strings is substring containment
    (`containsSubL`).
  * Python's `re` patterns used by the source are embedded directly as
    deterministic matchers; for each pattern the embedding's equivalence
    with backtracking semantics is argued in a comment at the definition.
  * Wall-clock time in the polling loop is modelled by an oracle
    `clock : Nat -> Rat` giving the elapsed seconds observed at the top of
    loop iteration `i` (the single `datetime.now()` read per iteration);
    the loop itself gets explicit fuel, with fuel exhaustion (`none`)
    standing for runs the finite model does not decide.
-/

/-- The error taxonomy of the spec.  The source raises a single
`BTHeadsetError` class (plus `ArgumentTypeError` for address validation);
each constructor corresponds to one raise site of the source. -/
inductive BTErr where
  | InvalidAddress
  | DeviceUnavailable
  | ConnectTimeout
  | EntityNotFound
  | ExternalProcessFailure
deriving DecidableEq

/-- One external-process invocation, as issued by the source: `bluetoothctl`
requests (connect / info) and `pacmd` requests (list-cards,
set-card-profile, list-sinks, set-default-sink). -/
inductive Call where
  | btConnect (addr : String)
  | btInfo (addr : String)
  | paListCards
  | paSetCardProfile (idx : String) (profile : String)
  | paListSinks
  | paSetDefaultSink (idx : String)
deriving DecidableEq

/-- Calls addressed to the audio controller (`pacmd`). -/
def Call.isAudio : Call → Bool
  | .btConnect _ => false
  | .btInfo _ => false
  | _ => true

/-- `startsWithL pat s`: `s` begins with `pat` (character lists). -/
def startsWithL : List Char → List Char → Bool
  | p :: ps, c :: cs => p == c && startsWithL ps cs
  | pat, _ => pat.isEmpty

/-- `containsSubL pat s`: Python's `pat in s` substring test. -/
def containsSubL (pat : List Char) : List Char → Bool
  | [] => startsWithL pat []
  | c :: cs => startsWithL pat (c :: cs) || containsSubL pat cs

theorem startsWithL_iff (pat s : List Char) :
    startsWithL pat s = true ↔ ∃ t, s = pat ++ t := by
  induction pat generalizing s with
  | nil => simp [startsWithL]
  | cons p ps ih =>
    cases s with
    | nil =>
      simp [startsWithL]
    | cons c cs =>
      simp only [startsWithL, Bool.and_eq_true, beq_iff_eq, ih, List.cons_append,
        List.cons.injEq]
      constructor
      · rintro ⟨rfl, t, rfl⟩
        exact ⟨t, rfl, rfl⟩
      · rintro ⟨t, rfl, rfl⟩
        exact ⟨rfl, t, rfl⟩

theorem containsSubL_iff (pat s : List Char) :
    containsSubL pat s = true ↔ ∃ pre post, s = pre ++ pat ++ post := by
  induction s with
  | nil =>
    simp only [containsSubL, startsWithL_iff]
    constructor
    · rintro ⟨t, ht⟩
      exact ⟨[], t, by simpa using ht⟩
    · rintro ⟨pre, post, h⟩
      refine ⟨post, ?_⟩
      have h' := h.symm
      simp only [List.append_assoc, List.append_eq_nil] at h'
      obtain ⟨h1, h2, h3⟩ := h'
      simp [h2, h3]
  | cons c cs ih =>
    simp only [containsSubL, Bool.or_eq_true, startsWithL_iff, ih]
    constructor
    · rintro (⟨t, ht⟩ | ⟨pre, post, hp⟩)
      · exact ⟨[], t, by simpa using ht⟩
      · exact ⟨c :: pre, post, by simp [hp]⟩
    · rintro ⟨pre, post, hp⟩
      cases pre with
      | nil => exact Or.inl ⟨post, by simpa using hp⟩
      | cons x xs =>
        right
        rw [List.cons_append, List.cons_append, List.cons.injEq] at hp
        exact ⟨xs, post, hp.2⟩

/-- The marker `wait_until_connected` scans each `info` output for. -/
def connectedMarker : String := "Connected: yes"

/-- Python's `"Connected: yes" in p.stdout.decode("utf-8")`. -/
def hasConnectedMarker (out : String) : Bool :=
  containsSubL connectedMarker.data out.data

/-- Outcome of the polling loop of `wait_until_connected`, together with the
number of `info` polls (`bluetoothctl info`, i.e. `queryInfo`) that were
issued.  `fuelOut` marks runs the finite model does not decide. -/
inductive WaitOut where
  | timedOut (polls : Nat)
  | connected (polls : Nat)
  | fuelOut
deriving DecidableEq

/-- The loop of `wait_until_connected` (btheadset.py:76-88), started at
iteration `i`.  `clock j` is the elapsed-seconds value
`(datetime.now() - start).total_seconds()` observed at the top of loop
iteration `j` (one `datetime.now()` read per iteration), `poll j` the stdout
of the `info` subprocess run in iteration `j`.  The loop continues while
`elapsed < t`; at loop exit the function raises (timeout). -/
def waitFrom (t : ℚ) (clock : Nat → ℚ) (poll : Nat → String) : Nat → Nat → WaitOut
  | _, 0 => .fuelOut
  | i, fuel+1 =>
    if t ≤ clock i then .timedOut i
    else if hasConnectedMarker (poll i) then .connected (i+1)
    else waitFrom t clock poll (i+1) fuel

/-- Embedding of `wait_until_connected` (btheadset.py:73-91): `none` when the
fuel bound is hit, otherwise the result together with the number of
`queryInfo` polls issued. -/
def wait_until_connected (t : ℚ) (clock : Nat → ℚ) (poll : Nat → String)
    (fuel : Nat) : Option (Except BTErr Unit × Nat) :=
  match waitFrom t clock poll 0 fuel with
  | .fuelOut => none
  | .timedOut k => some (.error .ConnectTimeout, k)
  | .connected k => some (.ok (), k)

theorem waitFrom_connected_at (t : ℚ) (clock : Nat → ℚ) (poll : Nat → String)
    (hmono : ∀ a b, a ≤ b → clock a ≤ clock b) (i : Nat)
    (hvt : clock i < t) (hmark : hasConnectedMarker (poll i) = true)
    (hfirst : ∀ j, j < i → hasConnectedMarker (poll j) = false) :
    ∀ fuel m, m ≤ i → i < m + fuel →
      waitFrom t clock poll m fuel = .connected (i + 1) := by
  intro fuel
  induction fuel with
  | zero => intro m hmi him; omega
  | succ f ih =>
    intro m hmi him
    have hcm : ¬ t ≤ clock m := not_le.mpr (lt_of_le_of_lt (hmono m i hmi) hvt)
    rcases Nat.eq_or_lt_of_le hmi with heq | hlt
    · subst heq
      simp [waitFrom, hcm, hmark]
    · have hfm : hasConnectedMarker (poll m) = false := hfirst m hlt
      simp only [waitFrom, if_neg hcm, hfm]
      simp only [Bool.false_eq_true, if_false]
      exact ih (m + 1) hlt (by omega)

theorem waitFrom_timedOut (t : ℚ) (clock : Nat → ℚ) (poll : Nat → String)
    (hnone : ∀ j, clock j < t → hasConnectedMarker (poll j) = false) :
    ∀ fuel m n, m ≤ n → n < m + fuel → t ≤ clock n →
      ∃ k, waitFrom t clock poll m fuel = .timedOut k := by
  intro fuel
  induction fuel with
  | zero => intro m n hmn hn ht; omega
  | succ f ih =>
    intro m n hmn hn ht
    by_cases hcm : t ≤ clock m
    · exact ⟨m, by simp [waitFrom, hcm]⟩
    · have hfm : hasConnectedMarker (poll m) = false :=
        hnone m (not_le.mp hcm)
      have hmn' : m + 1 ≤ n := by
        rcases Nat.eq_or_lt_of_le hmn with heq | hlt
        · exact absurd (heq ▸ ht) hcm
        · exact hlt
      obtain ⟨k, hk⟩ := ih (m + 1) n hmn' (by omega) ht
      refine ⟨k, ?_⟩
      simp only [waitFrom, if_neg hcm, hfm]
      simpa using hk

/-- Claim C2: the polling loop returns successfully when some poll made
before the wall-clock deadline contains `Connected: yes`; it fails with
`ConnectTimeout` when no poll made before the deadline contains the marker
(and the deadline is eventually observed); and because the elapsed-time
check sits at the top of each loop iteration, a poll started while the
deadline had not yet passed (`clock i < t`) completes and its output is
consulted, regardless of how far the clock has advanced by the next
loop-top check. -/
theorem wait_until_connected_spec (t : ℚ) (clock : Nat → ℚ) (poll : Nat → String)
    (fuel : Nat) (hmono : ∀ a b, a ≤ b → clock a ≤ clock b) :
    ((∃ i, i < fuel ∧ clock i < t ∧ hasConnectedMarker (poll i) = true) →
      ∃ k, wait_until_connected t clock poll fuel = some (.ok (), k)) ∧
    ((∀ j, clock j < t → hasConnectedMarker (poll j) = false) →
      ∀ n, n < fuel → t ≤ clock n →
      ∃ k, wait_until_connected t clock poll fuel = some (.error .ConnectTimeout, k)) ∧
    (∀ i, i < fuel → clock i < t → hasConnectedMarker (poll i) = true →
      (∀ j, j < i → hasConnectedMarker (poll j) = false) →
      wait_until_connected t clock poll fuel = some (.ok (), i + 1)) := by
  refine ⟨?_, ?_, ?_⟩
  · rintro ⟨i, hif, hvt, hm⟩
    have hex : ∃ j, hasConnectedMarker (poll j) = true := ⟨i, hm⟩
    set j := Nat.find hex with hj
    have hji : j ≤ i := Nat.find_min' hex hm
    have hmj : hasConnectedMarker (poll j) = true := Nat.find_spec hex
    have hfirst : ∀ k, k < j → hasConnectedMarker (poll k) = false := by
      intro k hk
      have := Nat.find_min hex hk
      simpa using this
    have hvj : clock j < t := lt_of_le_of_lt (hmono j i hji) hvt
    have hw := waitFrom_connected_at t clock poll hmono j hvj hmj hfirst fuel 0
      (Nat.zero_le j) (by omega)
    exact ⟨j + 1, by simp [wait_until_connected, hw]⟩
  · intro hnone n hnf htn
    obtain ⟨k, hk⟩ := waitFrom_timedOut t clock poll hnone fuel 0 n
      (Nat.zero_le n) (by omega) htn
    exact ⟨k, by simp [wait_until_connected, hk]⟩
  · intro i hif hvt hm hfirst
    have hw := waitFrom_connected_at t clock poll hmono i hvt hm hfirst fuel 0
      (Nat.zero_le i) (by omega)
    simp [wait_until_connected, hw]

/-- Witness for C2: a clock advancing one second per poll, a 5-second
timeout, and outputs where poll 0 lacks the marker and poll 1 carries it:
the loop succeeds after exactly two polls. -/
theorem wait_until_connected_spec_witness :
    (∀ a b : Nat, a ≤ b →
      (fun i : Nat => (i : ℚ)) a ≤ (fun i : Nat => (i : ℚ)) b) ∧
    wait_until_connected 5 (fun i : Nat => (i : ℚ))
      (fun i => if i = 1 then "Connected: yes" else "") 10 = some (.ok (), 2) := by
  have hmono : ∀ a b : Nat, a ≤ b →
      (fun i : Nat => (i : ℚ)) a ≤ (fun i : Nat => (i : ℚ)) b := by
    intro a b hab
    show (a : ℚ) ≤ (b : ℚ)
    exact_mod_cast hab
  refine ⟨hmono, ?_⟩
  have h := (wait_until_connected_spec 5 (fun i : Nat => (i : ℚ))
    (fun i => if i = 1 then "Connected: yes" else "") 10 hmono).2.2 1
    (by norm_num) (by norm_num) (by decide) ?_
  · exact h
  · intro j hj
    interval_cases j
    decide

/-- Claim C10: with a non-positive connect timeout (spec requires a positive
one), the loop-top deadline check fails before the first poll — the function
fails with `ConnectTimeout` having issued zero `queryInfo` calls, given only
that elapsed wall-clock time is non-negative. -/
theorem wait_until_connected_nonpos_timeout (t : ℚ) (clock : Nat → ℚ)
    (poll : Nat → String) (fuel : Nat) (ht : t ≤ 0) (hclock : 0 ≤ clock 0)
    (hfuel : 0 < fuel) :
    wait_until_connected t clock poll fuel = some (.error .ConnectTimeout, 0) := by
  cases fuel with
  | zero => omega
  | succ f =>
    have h0 : t ≤ clock 0 := le_trans ht hclock
    simp [wait_until_connected, waitFrom, h0]

/-- Witness for C10: timeout 0, a clock starting at elapsed 0. -/
theorem wait_until_connected_nonpos_timeout_witness :
    ((0 : ℚ) ≤ 0 ∧ (0 : ℚ) ≤ (fun _ : Nat => (0 : ℚ)) 0 ∧ 0 < 5) ∧
    wait_until_connected 0 (fun _ : Nat => (0 : ℚ)) (fun _ => "Connected: yes") 5 =
      some (.error .ConnectTimeout, 0) :=
  ⟨⟨le_refl 0, le_refl 0, by norm_num⟩,
    wait_until_connected_nonpos_timeout 0 (fun _ : Nat => (0 : ℚ))
      (fun _ => "Connected: yes") 5 (le_refl 0) (le_refl 0) (by norm_num)⟩

/-- The detection marker of `connect_device` for address `addr`:
the literal text scanned for in the controller's stdout. -/
def unavailableMarker (addr : String) : String :=
  "Device " ++ addr ++ " not available"

/-- Embedding of `connect_device` (btheadset.py:57-70).  The subprocess has
run and produced `out` on stdout; the function raises exactly when the
marker occurs in `out`. -/
def connect_device (addr out : String) : Except BTErr Unit :=
  if containsSubL (unavailableMarker addr).data out.data then
    .error .DeviceUnavailable
  else
    .ok ()

/-- Python's `str.replace(":", "_")` for a single-character pattern:
a character map. -/
def underscored (addr : String) : String :=
  ⟨addr.data.map (fun c => if c == ':' then '_' else c)⟩

/-- ASCII decimal digit: the characters matched by the pattern class `\d`
on the texts this program handles (the Unicode digits `\d` additionally
accepts never occur in `pacmd` output). -/
def isAsciiDigit (c : Char) : Bool :=
  48 ≤ c.toNat && c.toNat ≤ 57

/-- The whitespace class `\s` of Python `re` on ASCII text:
space, tab, newline, carriage return, vertical tab, form feed. -/
def isPySpace (c : Char) : Bool :=
  c.toNat == 32 || c.toNat == 9 || c.toNat == 10 ||
    c.toNat == 13 || c.toNat == 11 || c.toNat == 12

/-- One pattern character against one text character.  The synthesized
card/sink names are interpolated into the pattern unescaped, so their `.`
characters are the metacharacter "any character except newline"; every
other character occurring in the patterns of the source is literal. -/
def charMatch (p c : Char) : Bool :=
  if p == '.' then !(c == '\n') else p == c

/-- `charsMatchL pat l`: `l` has the length of `pat` and matches it
character by character (with `.` as wildcard). -/
def charsMatchL : List Char → List Char → Bool
  | [], [] => true
  | p :: ps, c :: cs => charMatch p c && charsMatchL ps cs
  | _, _ => false

/-- Consume a pattern (with `.` wildcards) from the front of the text,
returning the remainder on success. -/
def dropPrefM : List Char → List Char → Option (List Char)
  | [], s => some s
  | _ :: _, [] => none
  | p :: ps, c :: cs => if charMatch p c then dropPrefM ps cs else none

/-- Attempt the pattern `index: (\d+)\s*name: <NAME>` at the start of `s`,
where `nameTail` is the character list of `name: <NAME>`; returns the
captured digits.  This maximal-munch matcher is equivalent to the
backtracking regex here: `\d+` never has to give characters back because no
digit can start `\s*name`, and `\s*` never has to because `n` is not
whitespace. -/
def matchAt (nameTail : List Char) (s : List Char) : Option (List Char) :=
  match dropPrefM "index: ".data s with
  | none => none
  | some r1 =>
    let ds := r1.takeWhile isAsciiDigit
    if ds.isEmpty then none
    else
      match dropPrefM nameTail ((r1.dropWhile isAsciiDigit).dropWhile isPySpace) with
      | none => none
      | some _ => some ds

/-- `re.search`: try the pattern at each position, leftmost first. -/
def searchFrom (nameTail : List Char) : List Char → Option (List Char)
  | [] => matchAt nameTail []
  | c :: cs =>
    match matchAt nameTail (c :: cs) with
    | some d => some d
    | none => searchFrom nameTail cs

/-- Embedding of `get_card_index` (btheadset.py:94-113): `dump` is the
stdout of `pacmd list-cards`; the `re.MULTILINE` flag of the source is a
no-op because the pattern contains no anchors. -/
def get_card_index (addr dump : String) : Except BTErr String :=
  let card_name := "bluez_card." ++ underscored addr
  match searchFrom ("name: <" ++ card_name ++ ">").data dump.data with
  | some ds => .ok ⟨ds⟩
  | none => .error .EntityNotFound

/-- Embedding of `get_sink_index` (btheadset.py:127-146): `dump` is the
stdout of `pacmd list-sinks`; the sink name is synthesized from the
`profile` argument the caller passes. -/
def get_sink_index (addr profile dump : String) : Except BTErr String :=
  let sink_name := "bluez_sink." ++ underscored addr ++ "." ++ profile
  match searchFrom ("name: <" ++ sink_name ++ ">").data dump.data with
  | some ds => .ok ⟨ds⟩
  | none => .error .EntityNotFound

theorem dropPrefM_eq_some (pat : List Char) :
    ∀ s r, dropPrefM pat s = some r ↔
      ∃ l, s = l ++ r ∧ charsMatchL pat l = true := by
  induction pat with
  | nil =>
    intro s r
    simp only [dropPrefM, Option.some.injEq]
    constructor
    · rintro rfl
      exact ⟨[], rfl, rfl⟩
    · rintro ⟨l, rfl, hl⟩
      cases l with
      | nil => simp
      | cons x xs => simp [charsMatchL] at hl
  | cons p ps ih =>
    intro s r
    cases s with
    | nil =>
      simp only [dropPrefM]
      constructor
      · intro h; exact absurd h (by simp)
      · rintro ⟨l, hl, hm⟩
        cases l with
        | nil => simp [charsMatchL] at hm
        | cons x xs => simp at hl
    | cons c cs =>
      simp only [dropPrefM]
      by_cases hc : charMatch p c = true
      · rw [if_pos hc, ih]
        constructor
        · rintro ⟨l, rfl, hl⟩
          exact ⟨c :: l, rfl, by simp [charsMatchL, hc, hl]⟩
        · rintro ⟨l, hl, hm⟩
          cases l with
          | nil => simp [charsMatchL] at hm
          | cons x xs =>
            simp only [List.cons_append, List.cons.injEq] at hl
            obtain ⟨rfl, hcs⟩ := hl
            simp only [charsMatchL, Bool.and_eq_true] at hm
            exact ⟨xs, hcs, hm.2⟩
      · rw [if_neg hc]
        constructor
        · intro h; exact absurd h (by simp)
        · rintro ⟨l, hl, hm⟩
          cases l with
          | nil => simp [charsMatchL] at hm
          | cons x xs =>
            simp only [List.cons_append, List.cons.injEq] at hl
            obtain ⟨rfl, _⟩ := hl
            simp only [charsMatchL, Bool.and_eq_true] at hm
            exact absurd hm.1 hc

theorem charMatch_self (p : Char) : charMatch p p = true := by
  unfold charMatch
  by_cases h : p == '.'
  · rw [if_pos h]
    have : p = '.' := by simpa using h
    subst this
    decide
  · rw [if_neg h]
    simp

theorem dropPrefM_self_append (pat r : List Char) :
    dropPrefM pat (pat ++ r) = some r := by
  induction pat with
  | nil => rfl
  | cons p ps ih => simp [dropPrefM, charMatch_self, ih]

theorem takeWhile_all_append {p : Char → Bool} (l t : List Char)
    (hl : ∀ c ∈ l, p c = true) (ht : ∀ c, t.head? = some c → p c = false) :
    (l ++ t).takeWhile p = l ∧ (l ++ t).dropWhile p = t := by
  induction l with
  | nil =>
    cases t with
    | nil => exact ⟨rfl, rfl⟩
    | cons c cs =>
      have hc : p c = false := ht c rfl
      simp [List.takeWhile, List.dropWhile, hc]
  | cons x xs ih =>
    have hx : p x = true := hl x (by simp)
    have ih' := ih (fun c hc => hl c (by simp [hc]))
    simp [List.takeWhile, List.dropWhile, hx, ih'.1, ih'.2]

theorem isPySpace_not_digit (c : Char) (h : isPySpace c = true) :
    isAsciiDigit c = false := by
  simp only [isPySpace, Bool.or_eq_true, beq_iff_eq] at h
  simp only [isAsciiDigit, Bool.and_eq_true, decide_eq_true_eq,
    Bool.and_eq_false_iff, decide_eq_false_iff_not, not_le]
  omega

/-- Success of the deterministic matcher on a well-shaped prefix:
`index: `, then digits `ds`, then whitespace `ws`, then the name pattern
(matching itself), then anything. -/
theorem matchAt_shape (nameTail ds ws rest : List Char)
    (hds : ds ≠ []) (hd : ∀ c ∈ ds, isAsciiDigit c = true)
    (hws : ∀ c ∈ ws, isPySpace c = true)
    (hn : nameTail.head? = some 'n') :
    matchAt nameTail ("index: ".data ++ (ds ++ (ws ++ (nameTail ++ rest)))) =
      some ds := by
  obtain ⟨nt, rfl⟩ : ∃ nt, nameTail = 'n' :: nt := by
    cases nameTail with
    | nil => simp at hn
    | cons a as =>
      simp only [List.head?_cons, Option.some.injEq] at hn
      exact ⟨as, by rw [hn]⟩
  have hhead1 : ∀ c, (ws ++ (('n' :: nt) ++ rest)).head? = some c →
      isAsciiDigit c = false := by
    intro c hc
    cases ws with
    | nil =>
      simp only [List.nil_append, List.cons_append, List.head?_cons,
        Option.some.injEq] at hc
      subst hc
      decide
    | cons w wt =>
      have hw : w = c := by simpa using hc
      subst hw
      exact isPySpace_not_digit w (hws w (by simp))
  have hhead2 : ∀ c, (('n' :: nt) ++ rest).head? = some c →
      isPySpace c = false := by
    intro c hc
    simp only [List.cons_append, List.head?_cons, Option.some.injEq] at hc
    subst hc
    decide
  have h1 := takeWhile_all_append (p := isAsciiDigit) ds
    (ws ++ (('n' :: nt) ++ rest)) hd hhead1
  have h2 := takeWhile_all_append (p := isPySpace) ws
    (('n' :: nt) ++ rest) hws hhead2
  have hne : ds.isEmpty = false := by
    cases ds with
    | nil => exact absurd rfl hds
    | cons a as => rfl
  unfold matchAt
  simp only [dropPrefM_self_append, h1.1, h1.2, h2.2, hne,
    Bool.false_eq_true, if_false]

theorem searchFrom_of_matchAt (nameTail s d : List Char)
    (h : matchAt nameTail s = some d) : searchFrom nameTail s = some d := by
  cases s with
  | nil => simpa [searchFrom] using h
  | cons c cs => simp [searchFrom, h]

theorem matchAt_some_occurrence (nameTail s d : List Char)
    (h : matchAt nameTail s = some d) :
    ∃ pre l post, s = pre ++ l ++ post ∧ charsMatchL nameTail l = true := by
  unfold matchAt at h
  cases h1 : dropPrefM "index: ".data s with
  | none => rw [h1] at h; simp at h
  | some r1 =>
    rw [h1] at h
    simp only [] at h
    by_cases he : (r1.takeWhile isAsciiDigit).isEmpty
    · rw [if_pos he] at h; simp at h
    · rw [if_neg he] at h
      cases h2 : dropPrefM nameTail ((r1.dropWhile isAsciiDigit).dropWhile isPySpace) with
      | none => rw [h2] at h; simp at h
      | some rest =>
        obtain ⟨l0, hs0, _⟩ := (dropPrefM_eq_some _ _ _).mp h1
        obtain ⟨l, hs2, hml⟩ := (dropPrefM_eq_some _ _ _).mp h2
        refine ⟨(l0 ++ r1.takeWhile isAsciiDigit) ++
          (r1.dropWhile isAsciiDigit).takeWhile isPySpace, l, rest, ?_, hml⟩
        have hr1 : r1.takeWhile isAsciiDigit ++ r1.dropWhile isAsciiDigit = r1 :=
          List.takeWhile_append_dropWhile (p := isAsciiDigit) (l := r1)
        have hr2 : (r1.dropWhile isAsciiDigit).takeWhile isPySpace ++
            (r1.dropWhile isAsciiDigit).dropWhile isPySpace =
            r1.dropWhile isAsciiDigit :=
          List.takeWhile_append_dropWhile (p := isPySpace)
            (l := r1.dropWhile isAsciiDigit)
        have hr : r1 = r1.takeWhile isAsciiDigit ++
            ((r1.dropWhile isAsciiDigit).takeWhile isPySpace ++ (l ++ rest)) := by
          conv_lhs => rw [← hr1]
          rw [← hs2, hr2]
        rw [hs0]
        conv_lhs => rw [hr]
        simp [List.append_assoc]

theorem searchFrom_some_occurrence (nameTail : List Char) :
    ∀ s d, searchFrom nameTail s = some d →
      ∃ pre l post, s = pre ++ l ++ post ∧ charsMatchL nameTail l = true := by
  intro s
  induction s with
  | nil =>
    intro d h
    exact matchAt_some_occurrence _ _ _ (by simpa [searchFrom] using h)
  | cons c cs ih =>
    intro d h
    unfold searchFrom at h
    cases hm : matchAt nameTail (c :: cs) with
    | some d2 => exact matchAt_some_occurrence _ _ _ hm
    | none =>
      rw [hm] at h
      simp only [] at h
      obtain ⟨pre, l, post, hsp, hml⟩ := ih d h
      exact ⟨c :: pre, l, post, by simp [hsp], hml⟩

/-- Embedding of `set_card_profile` (btheadset.py:116-124).  `ok1`/`ok2`
say whether the first (`off`) and second (requested profile) `pacmd`
invocations exit successfully; `check=True` raises on the first failing
one, so a failing first call prevents the second.  The trace records each
attempted call with its success flag. -/
def set_card_profile (idx profile : String) (ok1 ok2 : Bool) :
    Except BTErr Unit × List (Call × Bool) :=
  if !ok1 then
    (.error .ExternalProcessFailure, [(.paSetCardProfile idx "off", false)])
  else if !ok2 then
    (.error .ExternalProcessFailure,
      [(.paSetCardProfile idx "off", true), (.paSetCardProfile idx profile, false)])
  else
    (.ok (),
      [(.paSetCardProfile idx "off", true), (.paSetCardProfile idx profile, true)])

/-- The profile the card is left in after a run: each successful
`set-card-profile` call overwrites it (every call of `set_card_profile`
targets the one card at hand). -/
def cardProfileAfter (initial : String) (calls : List (Call × Bool)) : String :=
  calls.foldl
    (fun st c =>
      match c with
      | (.paSetCardProfile _ p, true) => p
      | _ => st)
    initial

/-- Claim C7: `set_card_profile` issues exactly two sequential
profile-setting calls, `off` first and the requested profile second; when
both succeed it returns success; when the first succeeds and the second
fails it returns the failure and the card is left in the disabled (`off`)
state — no further call re-enables it. -/
theorem set_card_profile_spec (idx profile initial : String) (ok2 : Bool) :
    ((set_card_profile idx profile true ok2).2.map Prod.fst =
      [Call.paSetCardProfile idx "off", Call.paSetCardProfile idx profile]) ∧
    ((set_card_profile idx profile true true).1 = .ok ()) ∧
    ((set_card_profile idx profile true false).1 = .error .ExternalProcessFailure ∧
      cardProfileAfter initial (set_card_profile idx profile true false).2 = "off") := by
  refine ⟨?_, rfl, rfl, rfl⟩
  cases ok2 <;> rfl

/-- Claim C5: card lookup searches for the name `bluez_card.` followed by
the address with colons replaced by underscores; on the test dump it
returns `"1"`, and on any dump in which no segment matches the searched
name pattern it fails with `EntityNotFound`. -/
theorem get_card_index_spec :
    get_card_index "11:22:33:44:55:66"
      "index: 1\nname: <bluez_card.11_22_33_44_55_66>" = .ok "1" ∧
    (∀ addr dump : String,
      (¬ ∃ pre l post, dump.data = pre ++ l ++ post ∧
        charsMatchL ("name: <" ++ ("bluez_card." ++ underscored addr) ++ ">").data
          l = true) →
      get_card_index addr dump = .error .EntityNotFound) := by
  constructor
  · rfl
  · intro addr dump hno
    have hs : searchFrom
        ("name: <" ++ ("bluez_card." ++ underscored addr) ++ ">").data
        dump.data = none := by
      cases hs0 : searchFrom
          ("name: <" ++ ("bluez_card." ++ underscored addr) ++ ">").data
          dump.data with
      | none => rfl
      | some d => exact absurd (searchFrom_some_occurrence _ _ _ hs0) hno
    unfold get_card_index
    simp only [hs]

/-- Witness for C5: the empty dump from the source's own failing test case
contains no matching name, so lookup fails with `EntityNotFound`. -/
theorem get_card_index_spec_witness :
    (¬ ∃ pre l post, ("" : String).data = pre ++ l ++ post ∧
      charsMatchL
        ("name: <" ++ ("bluez_card." ++ underscored "AA:BB:CC:DD:EE:FF") ++ ">").data
        l = true) ∧
    get_card_index "AA:BB:CC:DD:EE:FF" "" = .error .EntityNotFound := by
  have hno : ¬ ∃ pre l post, ("" : String).data = pre ++ l ++ post ∧
      charsMatchL
        ("name: <" ++ ("bluez_card." ++ underscored "AA:BB:CC:DD:EE:FF") ++ ">").data
        l = true := by
    rintro ⟨pre, l, post, h1, h2⟩
    have hl : l = [] := by
      have h1' := h1.symm
      simp only [List.append_assoc, List.append_eq_nil] at h1'
      exact h1'.2.1
    subst hl
    exact absurd h2 (by decide)
  exact ⟨hno, get_card_index_spec.2 "AA:BB:CC:DD:EE:FF" "" hno⟩

/-- Claim C6: sink lookup searches for the name `bluez_sink.` +
address-with-underscores + `.` + the profile string passed by the caller
(main passes the requested profile): on the test dump it returns `"1"`;
any successful lookup certifies that the dump contains a segment matching
the name synthesized from that requested profile; and on any dump in which
no segment matches it fails with `EntityNotFound`. -/
theorem get_sink_index_spec :
    get_sink_index "11:22:33:44:55:66" "a2dp_sink"
      "index: 1\nname: <bluez_sink.11_22_33_44_55_66.a2dp_sink>" = .ok "1" ∧
    (∀ addr profile dump idx,
      get_sink_index addr profile dump = .ok idx →
      ∃ pre l post, dump.data = pre ++ l ++ post ∧
        charsMatchL
          ("name: <" ++ ("bluez_sink." ++ underscored addr ++ "." ++ profile) ++ ">").data
          l = true) ∧
    (∀ addr profile dump : String,
      (¬ ∃ pre l post, dump.data = pre ++ l ++ post ∧
        charsMatchL
          ("name: <" ++ ("bluez_sink." ++ underscored addr ++ "." ++ profile) ++ ">").data
          l = true) →
      get_sink_index addr profile dump = .error .EntityNotFound) := by
  refine ⟨rfl, ?_, ?_⟩
  · intro addr profile dump idx h
    unfold get_sink_index at h
    cases hs : searchFrom
        ("name: <" ++ ("bluez_sink." ++ underscored addr ++ "." ++ profile) ++ ">").data
        dump.data with
    | none =>
      simp only [hs] at h
      exact absurd h (by simp)
    | some d => exact searchFrom_some_occurrence _ _ _ hs
  · intro addr profile dump hno
    have hs : searchFrom
        ("name: <" ++ ("bluez_sink." ++ underscored addr ++ "." ++ profile) ++ ">").data
        dump.data = none := by
      cases hs0 : searchFrom
          ("name: <" ++ ("bluez_sink." ++ underscored addr ++ "." ++ profile) ++ ">").data
          dump.data with
      | none => rfl
      | some d => exact absurd (searchFrom_some_occurrence _ _ _ hs0) hno
    unfold get_sink_index
    simp only [hs]

/-- Witness for C6: on the empty dump (the source's failing test case),
sink lookup fails with `EntityNotFound`. -/
theorem get_sink_index_spec_witness :
    (¬ ∃ pre l post, ("" : String).data = pre ++ l ++ post ∧
      charsMatchL
        ("name: <" ++ ("bluez_sink." ++ underscored "AA:BB:CC:DD:EE:FF" ++ "." ++
          "a2dp_sink") ++ ">").data l = true) ∧
    get_sink_index "AA:BB:CC:DD:EE:FF" "a2dp_sink" "" = .error .EntityNotFound := by
  have hno : ¬ ∃ pre l post, ("" : String).data = pre ++ l ++ post ∧
      charsMatchL
        ("name: <" ++ ("bluez_sink." ++ underscored "AA:BB:CC:DD:EE:FF" ++ "." ++
          "a2dp_sink") ++ ">").data l = true := by
    rintro ⟨pre, l, post, h1, h2⟩
    have hl : l = [] := by
      have h1' := h1.symm
      simp only [List.append_assoc, List.append_eq_nil] at h1'
      exact h1'.2.1
    subst hl
    exact absurd h2 (by decide)
  exact ⟨hno, get_sink_index_spec.2.2 "AA:BB:CC:DD:EE:FF" "a2dp_sink" "" hno⟩

/-- Counterexample to claim C4: a dump in which the `index:` line and the
matching `name:` line are separated by an intervening line with
non-whitespace content (`foo`).  The pattern's `\s*` crosses only
whitespace, so extraction does not tolerate such lines: lookup fails with
`EntityNotFound` instead of returning `"1"`. -/
theorem index_lookup_intervening_cex :
    ("index: 1\nfoo\nname: <bluez_card.11_22_33_44_55_66>" : String).data =
      ("index: 1\n" : String).data ++ ("foo\n" : String).data ++
        ("name: <bluez_card.11_22_33_44_55_66>" : String).data ∧
    (∃ c ∈ ("foo\n" : String).data, isPySpace c = false) ∧
    get_card_index "11:22:33:44:55:66"
      "index: 1\nfoo\nname: <bluez_card.11_22_33_44_55_66>" =
      .error .EntityNotFound := by
  refine ⟨rfl, ⟨'f', by decide, by decide⟩, rfl⟩

/-- Claim C4 amended: between the digits of the `index:` line and the
matching `name:` line, the extraction pattern tolerates arbitrary
intervening whitespace (blank lines included) but not lines carrying
non-whitespace content; with only whitespace between them, card and sink
lookup extract and return the digits. -/
theorem index_lookup_whitespace_tolerant (addr profile : String)
    (ds ws rest : List Char) (hds : ds ≠ [])
    (hd : ∀ c ∈ ds, isAsciiDigit c = true)
    (hws : ∀ c ∈ ws, isPySpace c = true) :
    get_card_index addr
      ⟨"index: ".data ++ (ds ++ (ws ++
        (("name: <" ++ ("bluez_card." ++ underscored addr) ++ ">").data ++ rest)))⟩ =
      .ok ⟨ds⟩ ∧
    get_sink_index addr profile
      ⟨"index: ".data ++ (ds ++ (ws ++
        (("name: <" ++ ("bluez_sink." ++ underscored addr ++ "." ++ profile) ++ ">").data
          ++ rest)))⟩ =
      .ok ⟨ds⟩ := by
  constructor
  · have hn : (("name: <" ++ ("bluez_card." ++ underscored addr) ++ ">").data).head? =
        some 'n' := rfl
    have hm := matchAt_shape
      ("name: <" ++ ("bluez_card." ++ underscored addr) ++ ">").data
      ds ws rest hds hd hws hn
    have hs := searchFrom_of_matchAt _ _ _ hm
    unfold get_card_index
    simp only [hs]
  · have hn : (("name: <" ++ ("bluez_sink." ++ underscored addr ++ "." ++ profile) ++
        ">").data).head? = some 'n' := rfl
    have hm := matchAt_shape
      ("name: <" ++ ("bluez_sink." ++ underscored addr ++ "." ++ profile) ++ ">").data
      ds ws rest hds hd hws hn
    have hs := searchFrom_of_matchAt _ _ _ hm
    unfold get_sink_index
    simp only [hs]

/-- Witness for the amended C4: digits `1`, one intervening newline. -/
theorem index_lookup_whitespace_tolerant_witness :
    ((['1'] : List Char) ≠ [] ∧ (∀ c ∈ (['1'] : List Char), isAsciiDigit c = true) ∧
      (∀ c ∈ (['\n'] : List Char), isPySpace c = true)) ∧
    get_card_index "11:22:33:44:55:66"
      ⟨"index: ".data ++ (['1'] ++ (['\n'] ++
        (("name: <" ++ ("bluez_card." ++ underscored "11:22:33:44:55:66") ++ ">").data
          ++ [])))⟩ = .ok ⟨['1']⟩ :=
  ⟨⟨by decide, by decide, by decide⟩,
    (index_lookup_whitespace_tolerant "11:22:33:44:55:66" "a2dp_sink"
      ['1'] ['\n'] [] (by decide) (by decide) (by decide)).1⟩

/-- Claim C3: for every address and connect output, `connect_device` fails
with `DeviceUnavailable` iff the output contains the substring
`Device {address} not available` for that address; absent the marker it
succeeds regardless of any other content of the output. -/
theorem connect_device_marker_iff (addr out : String) :
    (connect_device addr out = .error .DeviceUnavailable ↔
      ∃ pre post, out.data = pre ++ (unavailableMarker addr).data ++ post) ∧
    ((¬ ∃ pre post, out.data = pre ++ (unavailableMarker addr).data ++ post) →
      connect_device addr out = .ok ()) := by
  constructor
  · rw [← containsSubL_iff]
    unfold connect_device
    by_cases h : containsSubL (unavailableMarker addr).data out.data = true
    · simp [h]
    · simp [h]
  · intro hno
    rw [← containsSubL_iff] at hno
    unfold connect_device
    simp [Bool.not_eq_true] at hno
    simp [hno]

/-- Witness for C3 at the source's own test inputs: the success branch of
`test_connect_device`. -/
theorem connect_device_marker_iff_witness :
    (¬ ∃ pre post,
        ("Attempting to connect to 11:22:33:44:55:66" : String).data =
          pre ++ (unavailableMarker "11:22:33:44:55:66").data ++ post) ∧
    connect_device "11:22:33:44:55:66" "Attempting to connect to 11:22:33:44:55:66" =
      .ok () := by
  have hfalse : containsSubL (unavailableMarker "11:22:33:44:55:66").data
      ("Attempting to connect to 11:22:33:44:55:66" : String).data = false := by
    decide
  have hno : ¬ ∃ pre post,
      ("Attempting to connect to 11:22:33:44:55:66" : String).data =
        pre ++ (unavailableMarker "11:22:33:44:55:66").data ++ post := by
    intro hex
    rw [← containsSubL_iff] at hex
    simp [hfalse] at hex
  exact ⟨hno,
    (connect_device_marker_iff "11:22:33:44:55:66"
      "Attempting to connect to 11:22:33:44:55:66").2 hno⟩

/-- The CLI-derived inputs of `main` after argument parsing: a validated
address, the connect timeout (seconds) and the requested card profile. -/
structure Args where
  address : String
  connect_timeout : ℚ
  card_profile : String

/-- The environment's responses for one run of `main`.  Every subprocess the
source spawns uses `check=True`, so each invocation carries an exit status
(`..Ok` fields; a nonzero exit raises `CalledProcessError`, modelled as
`ExternalProcessFailure`) besides the stdout it produces when it runs:
connect status and output, the polling clock with per-poll status and
outputs, the two list dumps with their statuses, the two `set-card-profile`
statuses, and the `set-default-sink` status. -/
structure World where
  connectOk : Bool
  connectOut : String
  clock : Nat → ℚ
  pollOk : Nat → Bool
  polls : Nat → String
  cardsOk : Bool
  cardDump : String
  profOk1 : Bool
  profOk2 : Bool
  sinksOk : Bool
  sinkDump : String
  defaultSinkOk : Bool

/-- Outcome of the polling loop with process failures: like `WaitOut`, plus
`procFail k` — the last of the `k` info subprocesses issued exited nonzero
and `check=True` raised there. -/
inductive WaitOutC where
  | timedOut (polls : Nat)
  | connected (polls : Nat)
  | procFail (polls : Nat)
  | fuelOut
deriving DecidableEq

/-- The loop of `wait_until_connected` with each poll's process exit
status: at iteration `i`, after the loop-top deadline check, the info
subprocess is spawned (one call made); `check=True` raises if it exits
nonzero, before its output can be inspected. -/
def waitFromC (t : ℚ) (clock : Nat → ℚ) (ok : Nat → Bool)
    (poll : Nat → String) : Nat → Nat → WaitOutC
  | _, 0 => .fuelOut
  | i, fuel+1 =>
    if t ≤ clock i then .timedOut i
    else if !(ok i) then .procFail (i+1)
    else if hasConnectedMarker (poll i) then .connected (i+1)
    else waitFromC t clock ok poll (i+1) fuel

/-- When every info subprocess exits successfully, the checked loop is
exactly `waitFrom`: `wait_until_connected` is the all-processes-succeed
restriction of the loop `mainRun` runs. -/
theorem waitFromC_all_ok (t : ℚ) (clock : Nat → ℚ) (ok : Nat → Bool)
    (poll : Nat → String) (hok : ∀ j, ok j = true) :
    ∀ fuel i, waitFromC t clock ok poll i fuel =
      match waitFrom t clock poll i fuel with
      | .timedOut k => .timedOut k
      | .connected k => .connected k
      | .fuelOut => .fuelOut := by
  intro fuel
  induction fuel with
  | zero => intro i; rfl
  | succ f ih =>
    intro i
    unfold waitFromC waitFrom
    rw [hok i]
    by_cases h1 : t ≤ clock i
    · rw [if_pos h1, if_pos h1]
    · rw [if_neg h1, if_neg h1]
      simp only [Bool.not_true, Bool.false_eq_true, if_false]
      by_cases h2 : hasConnectedMarker (poll i) = true
      · rw [if_pos h2, if_pos h2]
      · rw [if_neg h2, if_neg h2]
        exact ih (i+1)

/-- The `btInfo` calls made by `k` polls. -/
def infoCalls (addr : String) (k : Nat) : List Call :=
  (List.range k).map (fun _ => Call.btInfo addr)

/-- Embedding of `main` (btheadset.py:157-179) after argument parsing:
connect, wait until connected, resolve the card, set the profile, resolve
the sink, set the default sink — each step sequenced strictly after the
previous one, aborting on its first failure (an uncaught exception in the
source).  Every subprocess is spawned with `check=True`: a nonzero exit at
any of them — the connect request, an info poll, either list dump, either
profile-set call, or the final default-sink call — aborts the run there
with `ExternalProcessFailure`, the failing call included in the trace.
Returns the result and the full trace of external calls; `none` when the
polling loop exhausts its fuel. -/
def mainRun (a : Args) (w : World) (fuel : Nat) :
    Option (Except BTErr Unit × List Call) :=
  if w.connectOk then
    match connect_device a.address w.connectOut with
    | .error e => some (.error e, [.btConnect a.address])
    | .ok _ =>
      match waitFromC a.connect_timeout w.clock w.pollOk w.polls 0 fuel with
      | .fuelOut => none
      | .procFail k =>
        some (.error .ExternalProcessFailure,
          .btConnect a.address :: infoCalls a.address k)
      | .timedOut k =>
        some (.error .ConnectTimeout, .btConnect a.address :: infoCalls a.address k)
      | .connected k =>
        let tr0 := Call.btConnect a.address :: infoCalls a.address k
        if w.cardsOk then
          match get_card_index a.address w.cardDump with
          | .error e => some (.error e, tr0 ++ [.paListCards])
          | .ok card_index =>
            let pr := set_card_profile card_index a.card_profile w.profOk1 w.profOk2
            let tr1 := tr0 ++ .paListCards :: pr.2.map Prod.fst
            match pr.1 with
            | .error e => some (.error e, tr1)
            | .ok _ =>
              if w.sinksOk then
                match get_sink_index a.address a.card_profile w.sinkDump with
                | .error e => some (.error e, tr1 ++ [.paListSinks])
                | .ok sink_index =>
                  let tr2 := tr1 ++ [.paListSinks, .paSetDefaultSink sink_index]
                  if w.defaultSinkOk then some (.ok (), tr2)
                  else some (.error .ExternalProcessFailure, tr2)
              else
                some (.error .ExternalProcessFailure, tr1 ++ [.paListSinks])
        else
          some (.error .ExternalProcessFailure, tr0 ++ [.paListCards])
  else
    some (.error .ExternalProcessFailure, [.btConnect a.address])

/-- The process exit status: 0 on success, non-zero on the uncaught
exception any failure raises. -/
def exitCode : Except BTErr Unit → Nat
  | .ok _ => 0
  | .error _ => 1

theorem mainRun_error_default_sink_last (a : Args) (w : World) (fuel : Nat)
    (e : BTErr) (tr : List Call) (h : mainRun a w fuel = some (.error e, tr)) :
    ∀ i, Call.paSetDefaultSink i ∈ tr →
      e = .ExternalProcessFailure ∧ tr.getLast? = some (.paSetDefaultSink i) := by
  intro i hi
  cases hk : w.connectOk with
  | false =>
    simp only [mainRun, hk, Bool.false_eq_true, if_false, Option.some.injEq,
      Prod.mk.injEq] at h
    rw [← h.2] at hi
    simp at hi
  | true =>
    cases hc : connect_device a.address w.connectOut with
    | error e1 =>
      simp only [mainRun, hk, if_true, hc, Option.some.injEq, Prod.mk.injEq] at h
      rw [← h.2] at hi
      simp at hi
    | ok u =>
      cases hw : waitFromC a.connect_timeout w.clock w.pollOk w.polls 0 fuel with
      | fuelOut => simp [mainRun, hk, hc, hw] at h
      | procFail k =>
        simp only [mainRun, hk, if_true, hc, hw, Option.some.injEq,
          Prod.mk.injEq] at h
        rw [← h.2] at hi
        simp [infoCalls] at hi
      | timedOut k =>
        simp only [mainRun, hk, if_true, hc, hw, Option.some.injEq,
          Prod.mk.injEq] at h
        rw [← h.2] at hi
        simp [infoCalls] at hi
      | connected k =>
        cases hq : w.cardsOk with
        | false =>
          simp only [mainRun, hk, if_true, hc, hw, hq, Bool.false_eq_true,
            if_false, Option.some.injEq, Prod.mk.injEq] at h
          rw [← h.2] at hi
          simp [infoCalls] at hi
        | true =>
          cases hcard : get_card_index a.address w.cardDump with
          | error e3 =>
            simp only [mainRun, hk, if_true, hc, hw, hq, hcard, Option.some.injEq,
              Prod.mk.injEq] at h
            rw [← h.2] at hi
            simp [infoCalls] at hi
          | ok card_index =>
            cases hp1 : w.profOk1 with
            | false =>
              have hpr : set_card_profile card_index a.card_profile
                  w.profOk1 w.profOk2 =
                  (.error .ExternalProcessFailure,
                    [(.paSetCardProfile card_index "off", false)]) := by
                rw [hp1]; rfl
              simp only [mainRun, hk, if_true, hc, hw, hq, hcard, hpr,
                Option.some.injEq, Prod.mk.injEq] at h
              rw [← h.2] at hi
              simp [infoCalls] at hi
            | true =>
              cases hp2 : w.profOk2 with
              | false =>
                have hpr : set_card_profile card_index a.card_profile
                    w.profOk1 w.profOk2 =
                    (.error .ExternalProcessFailure,
                      [(.paSetCardProfile card_index "off", true),
                        (.paSetCardProfile card_index a.card_profile, false)]) := by
                  rw [hp1, hp2]; rfl
                simp only [mainRun, hk, if_true, hc, hw, hq, hcard, hpr,
                  Option.some.injEq, Prod.mk.injEq] at h
                rw [← h.2] at hi
                simp [infoCalls] at hi
              | true =>
                have hpr : set_card_profile card_index a.card_profile
                    w.profOk1 w.profOk2 =
                    (.ok (),
                      [(.paSetCardProfile card_index "off", true),
                        (.paSetCardProfile card_index a.card_profile, true)]) := by
                  rw [hp1, hp2]; rfl
                cases hs : w.sinksOk with
                | false =>
                  simp only [mainRun, hk, if_true, hc, hw, hq, hcard, hpr, hs,
                    Bool.false_eq_true, if_false, Option.some.injEq,
                    Prod.mk.injEq] at h
                  rw [← h.2] at hi
                  simp [infoCalls] at hi
                | true =>
                  cases hsink : get_sink_index a.address a.card_profile w.sinkDump with
                  | error e4 =>
                    simp only [mainRun, hk, if_true, hc, hw, hq, hcard, hpr, hs,
                      hsink, Option.some.injEq, Prod.mk.injEq] at h
                    rw [← h.2] at hi
                    simp [infoCalls] at hi
                  | ok sink_index =>
                    cases hd : w.defaultSinkOk with
                    | true =>
                      simp [mainRun, hk, hc, hw, hq, hcard, hpr, hs, hsink, hd] at h
                    | false =>
                      simp only [mainRun, hk, if_true, hc, hw, hq, hcard, hpr, hs,
                        hsink, hd, Bool.false_eq_true, if_false, Option.some.injEq,
                        Prod.mk.injEq, Except.error.injEq] at h
                      obtain ⟨he, htr⟩ := h
                      subst he
                      rw [← htr] at hi
                      have hieq : i = sink_index := by
                        rcases List.mem_append.mp hi with h1 | h2
                        · exfalso
                          rcases List.mem_append.mp h1 with h3 | h4
                          · simp [infoCalls] at h3
                          · simp at h4
                        · simp at h2
                          exact h2
                      subst hieq
                      refine ⟨rfl, ?_⟩
                      rw [← htr]
                      have hsplit :
                          (Call.btConnect a.address :: infoCalls a.address k ++
                            Call.paListCards ::
                              [(Call.paSetCardProfile card_index "off", true),
                                (Call.paSetCardProfile card_index a.card_profile,
                                  true)].map Prod.fst) ++
                            [Call.paListSinks, Call.paSetDefaultSink i] =
                          ((Call.btConnect a.address :: infoCalls a.address k ++
                            Call.paListCards ::
                              [(Call.paSetCardProfile card_index "off", true),
                                (Call.paSetCardProfile card_index a.card_profile,
                                  true)].map Prod.fst) ++
                            [Call.paListSinks]) ++ [Call.paSetDefaultSink i] := by
                        simp [List.append_assoc]
                      rw [hsplit]
                      exact List.getLast?_concat _

/-- Claim C1: when the connect subprocess runs to completion and its output
carries the `Device {address} not available` marker, the orchestrator
aborts at the connect step with `DeviceUnavailable`: the only external
call of the run is the connect request itself — in particular no
audio-controller call is made — and the process exit code is non-zero.
In general the orchestrator surfaces its first failure and performs none
of the remaining steps: a failed run reaches the final default-sink call
only when that very call is the failing step, and then it is the run's
last action. -/
theorem mainRun_aborts_on_unavailable (a : Args) (w : World) (fuel : Nat)
    (hP : w.connectOk = true)
    (h : containsSubL (unavailableMarker a.address).data w.connectOut.data = true) :
    mainRun a w fuel = some (.error .DeviceUnavailable, [Call.btConnect a.address]) ∧
    (Call.isAudio (Call.btConnect a.address) = false) ∧
    exitCode (.error .DeviceUnavailable) ≠ 0 ∧
    (∀ w2 : World, ∀ fuel2 e tr, mainRun a w2 fuel2 = some (.error e, tr) →
      ∀ i, Call.paSetDefaultSink i ∈ tr →
        e = .ExternalProcessFailure ∧ tr.getLast? = some (.paSetDefaultSink i)) := by
  refine ⟨?_, rfl, by simp [exitCode], ?_⟩
  · have hc : connect_device a.address w.connectOut = .error .DeviceUnavailable := by
      unfold connect_device
      simp [h]
    unfold mainRun
    rw [hP, if_pos rfl, hc]
  · intro w2 fuel2 e tr h2
    exact mainRun_error_default_sink_last a w2 fuel2 e tr h2

/-- Witness for C1: the end-to-end scenario of the spec — address
`AA:BB:CC:DD:EE:FF`, default profile, 5-second timeout, connect output
reporting the device not available, every subprocess exiting cleanly. -/
theorem mainRun_aborts_on_unavailable_witness :
    ((⟨true, "Device AA:BB:CC:DD:EE:FF not available", fun _ => 0, fun _ => true,
        fun _ => "", true, "", true, true, true, "", true⟩ : World).connectOk = true ∧
      containsSubL (unavailableMarker "AA:BB:CC:DD:EE:FF").data
        ("Device AA:BB:CC:DD:EE:FF not available" : String).data = true) ∧
    mainRun ⟨"AA:BB:CC:DD:EE:FF", 5, "a2dp_sink"⟩
      ⟨true, "Device AA:BB:CC:DD:EE:FF not available", fun _ => 0, fun _ => true,
        fun _ => "", true, "", true, true, true, "", true⟩ 5 =
      some (.error .DeviceUnavailable, [Call.btConnect "AA:BB:CC:DD:EE:FF"]) :=
  ⟨⟨rfl, by decide⟩,
    (mainRun_aborts_on_unavailable ⟨"AA:BB:CC:DD:EE:FF", 5, "a2dp_sink"⟩
      ⟨true, "Device AA:BB:CC:DD:EE:FF not available", fun _ => 0, fun _ => true,
        fun _ => "", true, "", true, true, true, "", true⟩ 5 rfl (by decide)).1⟩


/-- The characters matched by the class `[0-9a-f]` under `re.IGNORECASE`,
as a set (the order of the enumeration is immaterial). -/
def hexChars : List Char :=
  ['0', 'a', 'A', '1', 'b', 'B', '2', 'c', 'C', '3', 'd', 'D',
   '4', 'e', 'E', '5', 'f', 'F', '6', '7', '8', '9']

def isHexB (c : Char) : Bool := decide (c ∈ hexChars)

/-- Uppercase-or-digit hex characters: the claim's canonical-form
`XX:XX:XX:XX:XX:XX` alphabet (again enumerated as a set). -/
def upperHexChars : List Char :=
  ['0', 'A', '1', 'B', '2', 'C', '3', 'D',
   '4', 'E', '5', 'F', '6', '7', '8', '9']

def isUpperHexB (c : Char) : Bool := decide (c ∈ upperHexChars)

/-- `pairRestP hex n l`: `l` is exactly `n + 1` colon-separated pairs of
characters satisfying `hex` — the core of the pattern
`([0-9a-f]{2}:){5}([0-9a-f]{2})` read with `n = 5`. -/
def pairRestP (hex : Char → Bool) : Nat → List Char → Bool
  | 0, l =>
    match l with
    | [a, b] => hex a && hex b
    | _ => false
  | n+1, l =>
    match l with
    | a :: b :: c :: rest => hex a && hex b && (c == ':') && pairRestP hex n rest
    | _ => false

/-- `re.match` of `^([0-9a-f]{2}:){5}([0-9a-f]{2})$` under `re.IGNORECASE`
(btheadset.py:16,21): anchored at the start by `match`; the un-flagged `$`
matches at the end of the string or just before a single final newline. -/
def RE_BT_ADDRESS_match (s : String) : Bool :=
  pairRestP isHexB 5 s.data ||
    (if s.data.getLast? = some '\n' then pairRestP isHexB 5 s.data.dropLast
     else false)

/-- The inputs `BluetoothAddress.__call__` can receive from argparse or the
tests: strings, or non-string values such as integers, which `str(value)`
renders in decimal. -/
inductive PyVal where
  | ofStr (s : String)
  | ofInt (n : Int)

def digitChar : Nat → Char
  | 0 => '0' | 1 => '1' | 2 => '2' | 3 => '3' | 4 => '4'
  | 5 => '5' | 6 => '6' | 7 => '7' | 8 => '8' | 9 => '9'
  | _ => '0'

/-- Decimal digits of `n`, most significant first (`fuel ≥ 1 + digits`). -/
def natDigits : Nat → Nat → List Char
  | 0, _ => []
  | fuel+1, n =>
    if n < 10 then [digitChar n]
    else natDigits fuel (n / 10) ++ [digitChar (n % 10)]

/-- Python's `str` on an `int`: decimal digits, `-` sign for negatives. -/
def intStr (n : Int) : String :=
  if n < 0 then ⟨'-' :: natDigits (n.natAbs + 1) n.natAbs⟩
  else ⟨natDigits (n.toNat + 1) n.toNat⟩

/-- Python's `str(value)` on the modelled input values. -/
def pyStr : PyVal → String
  | .ofStr s => s
  | .ofInt n => intStr n

/-- Python's `str.upper()`: character-wise uppercasing (exact on the ASCII
texts this program handles). -/
def pyUpper (s : String) : String := ⟨s.data.map Char.toUpper⟩

/-- Embedding of `BluetoothAddress.__call__` (btheadset.py:18-23):
`str(value)`, regex match (raise `ArgumentTypeError` on failure, mapped to
`InvalidAddress`), then `.upper()`. -/
def BluetoothAddress_call (v : PyVal) : Except BTErr String :=
  let s := pyStr v
  if RE_BT_ADDRESS_match s then .ok (pyUpper s) else .error .InvalidAddress

/-- The spec's shape, stated from its words for comparison with the source
matcher: pairs joined by single colons. -/
def joinColon : List (List Char) → List Char
  | [] => []
  | [p] => p
  | p :: q :: ps => p ++ ':' :: joinColon (q :: ps)

/-- Modelled from the spec's words: "six colon-separated hexadecimal byte
pairs, case-insensitive".  Used as the spec-side characterization against
which the source regex is compared. -/
def SixHexPairs (l : List Char) : Prop :=
  ∃ ps : List (List Char), ps.length = 6 ∧
    (∀ p ∈ ps, ∃ a b, p = [a, b] ∧ isHexB a = true ∧ isHexB b = true) ∧
    l = joinColon ps

/-- The shapes the source regex actually accepts: the spec's shape, or the
spec's shape followed by one final newline (Python `$` semantics). -/
def SixHexPairsNL (l : List Char) : Prop :=
  SixHexPairs l ∨ ∃ l0, l = l0 ++ ['\n'] ∧ SixHexPairs l0

theorem pairRestP_iff_pairs (hex : Char → Bool) :
    ∀ n l, pairRestP hex n l = true ↔
      ∃ ps : List (List Char), ps.length = n + 1 ∧
        (∀ p ∈ ps, ∃ a b, p = [a, b] ∧ hex a = true ∧ hex b = true) ∧
        l = joinColon ps := by
  intro n
  induction n with
  | zero =>
    intro l
    constructor
    · intro h
      rcases l with _ | ⟨a, _ | ⟨b, _ | ⟨c, l⟩⟩⟩
      · simp [pairRestP] at h
      · simp [pairRestP] at h
      · simp only [pairRestP, Bool.and_eq_true] at h
        refine ⟨[[a, b]], rfl, ?_, rfl⟩
        intro p hp
        simp only [List.mem_singleton] at hp
        subst hp
        exact ⟨a, b, rfl, h.1, h.2⟩
      · simp [pairRestP] at h
    · rintro ⟨ps, hlen, hall, rfl⟩
      rcases ps with _ | ⟨p, _ | ⟨q, ps⟩⟩
      · simp at hlen
      · obtain ⟨a, b, rfl, ha, hb⟩ := hall p (by simp)
        simp [pairRestP, joinColon, ha, hb]
      · simp at hlen
  | succ n ih =>
    intro l
    constructor
    · intro h
      rcases l with _ | ⟨a, _ | ⟨b, _ | ⟨c, l⟩⟩⟩
      · simp [pairRestP] at h
      · simp [pairRestP] at h
      · simp [pairRestP] at h
      · simp only [pairRestP, Bool.and_eq_true, beq_iff_eq] at h
        obtain ⟨⟨⟨ha, hb⟩, hc⟩, hrest⟩ := h
        subst hc
        obtain ⟨ps, hlen, hall, hjoin⟩ := (ih l).mp hrest
        rcases ps with _ | ⟨q, ps⟩
        · simp at hlen
        · refine ⟨[a, b] :: q :: ps, by simpa using hlen, ?_, ?_⟩
          · intro p hp
            rcases List.mem_cons.mp hp with rfl | hp2
            · exact ⟨a, b, rfl, ha, hb⟩
            · exact hall p hp2
          · rw [hjoin]; rfl
    · rintro ⟨ps, hlen, hall, rfl⟩
      rcases ps with _ | ⟨p, _ | ⟨q, ps⟩⟩
      · simp at hlen
      · simp at hlen
      · obtain ⟨a, b, rfl, ha, hb⟩ := hall p (by simp)
        have hrest : pairRestP hex n (joinColon (q :: ps)) = true := by
          apply (ih (joinColon (q :: ps))).mpr
          refine ⟨q :: ps, by simpa using hlen, ?_, rfl⟩
          intro p2 hp2
          exact hall p2 (List.mem_cons_of_mem _ hp2)
        simp [pairRestP, joinColon, ha, hb, hrest]

theorem sixHexPairs_of_pairRest {l : List Char}
    (h : pairRestP isHexB 5 l = true) : SixHexPairs l := by
  obtain ⟨ps, hlen, hall, hjoin⟩ := (pairRestP_iff_pairs isHexB 5 l).mp h
  exact ⟨ps, hlen, hall, hjoin⟩

theorem pairRest_of_sixHexPairs {l : List Char} (h : SixHexPairs l) :
    pairRestP isHexB 5 l = true := by
  obtain ⟨ps, hlen, hall, hjoin⟩ := h
  exact (pairRestP_iff_pairs isHexB 5 l).mpr ⟨ps, hlen, hall, hjoin⟩

theorem pairRestP_length (hex : Char → Bool) :
    ∀ n l, pairRestP hex n l = true → l.length = 3 * n + 2 := by
  intro n
  induction n with
  | zero =>
    intro l h
    rcases l with _ | ⟨a, _ | ⟨b, _ | ⟨c, l⟩⟩⟩ <;> simp [pairRestP] at h ⊢
  | succ n ih =>
    intro l h
    rcases l with _ | ⟨a, _ | ⟨b, _ | ⟨c, l⟩⟩⟩ <;> simp [pairRestP] at h
    have := ih l h.2
    simp [this]
    ring

theorem sixHexPairs_length {l : List Char} (h : SixHexPairs l) :
    l.length = 17 := by
  have := pairRestP_length isHexB 5 l (pairRest_of_sixHexPairs h)
  omega

theorem getLast?_decomp {l : List Char} {c : Char} (h : l.getLast? = some c) :
    l = l.dropLast ++ [c] := by
  induction l with
  | nil => simp at h
  | cons a t ih =>
    cases t with
    | nil =>
      simp only [List.getLast?_singleton, Option.some.injEq] at h
      subst h
      rfl
    | cons b t2 =>
      rw [List.getLast?_cons_cons] at h
      have h2 := ih h
      calc a :: b :: t2 = a :: (b :: t2) := rfl
        _ = a :: ((b :: t2).dropLast ++ [c]) := by rw [← h2]
        _ = (a :: b :: t2).dropLast ++ [c] := by
            simp [List.dropLast]

theorem toUpper_hex (c : Char) (h : isHexB c = true) :
    isUpperHexB (Char.toUpper c) = true := by
  simp only [isHexB, decide_eq_true_eq] at h
  fin_cases h <;> decide

theorem map_joinColon (f : Char → Char) (hc : f ':' = ':') :
    ∀ ps : List (List Char),
      (joinColon ps).map f = joinColon (ps.map (fun p => p.map f)) := by
  intro ps
  induction ps with
  | nil => rfl
  | cons p ps ih =>
    cases ps with
    | nil => rfl
    | cons q ps2 =>
      simp only [joinColon, List.map_append, List.map_cons, List.map]
      rw [hc, ih]
      rfl

/-- Claim C8: every string of six colon-separated two-hex-digit byte pairs
(either case) is accepted by the validator, which returns its uppercase
form; that result again consists of six colon-separated pairs over the
uppercase-hex alphabet `XX:XX:XX:XX:XX:XX`. -/
theorem BluetoothAddress_call_valid (s : String) (h : SixHexPairs s.data) :
    BluetoothAddress_call (.ofStr s) = .ok (pyUpper s) ∧
    pairRestP isUpperHexB 5 (pyUpper s).data = true := by
  have hre : RE_BT_ADDRESS_match s = true := by
    unfold RE_BT_ADDRESS_match
    rw [pairRest_of_sixHexPairs h]
    rfl
  constructor
  · unfold BluetoothAddress_call
    simp [pyStr, hre]
  · obtain ⟨ps, hlen, hall, hjoin⟩ := h
    have hmap : (pyUpper s).data = joinColon (ps.map (fun p => p.map Char.toUpper)) := by
      show s.data.map Char.toUpper = _
      rw [hjoin, map_joinColon Char.toUpper (by decide)]
    rw [hmap]
    apply (pairRestP_iff_pairs isUpperHexB 5 _).mpr
    refine ⟨ps.map (fun p => p.map Char.toUpper), by simp [hlen], ?_, rfl⟩
    intro p hp
    obtain ⟨p0, hp0, rfl⟩ := List.mem_map.mp hp
    obtain ⟨a, b, rfl, ha, hb⟩ := hall p0 hp0
    exact ⟨Char.toUpper a, Char.toUpper b, rfl, toUpper_hex a ha, toUpper_hex b hb⟩

/-- Witness for C8: the lowercase test address `aa:bb:cc:dd:ee:ff`. -/
theorem BluetoothAddress_call_valid_witness :
    SixHexPairs ("aa:bb:cc:dd:ee:ff" : String).data ∧
    BluetoothAddress_call (.ofStr "aa:bb:cc:dd:ee:ff") =
      .ok (pyUpper "aa:bb:cc:dd:ee:ff") := by
  have hsp : SixHexPairs ("aa:bb:cc:dd:ee:ff" : String).data := by
    refine ⟨[['a', 'a'], ['b', 'b'], ['c', 'c'], ['d', 'd'], ['e', 'e'], ['f', 'f']],
      rfl, ?_, by decide⟩
    intro p hp
    fin_cases hp <;> exact ⟨_, _, rfl, by decide, by decide⟩
  exact ⟨hsp, (BluetoothAddress_call_valid "aa:bb:cc:dd:ee:ff" hsp).1⟩

theorem digitChar_ne_colon (m : Nat) : digitChar m ≠ ':' := by
  unfold digitChar
  split <;> decide

theorem natDigits_no_colon : ∀ fuel n, ':' ∉ natDigits fuel n := by
  intro fuel
  induction fuel with
  | zero => intro n; simp [natDigits]
  | succ f ih =>
    intro n
    unfold natDigits
    by_cases h : n < 10
    · rw [if_pos h]
      intro hc
      simp only [List.mem_singleton] at hc
      exact digitChar_ne_colon n hc.symm
    · rw [if_neg h]
      intro hc
      rcases List.mem_append.mp hc with h1 | h2
      · exact ih (n / 10) h1
      · simp only [List.mem_singleton] at h2
        exact digitChar_ne_colon _ h2.symm

theorem intStr_no_colon (n : Int) : ':' ∉ (intStr n).data := by
  unfold intStr
  by_cases h : n < 0
  · rw [if_pos h]
    intro hc
    have hc2 : ':' ∈ '-' :: natDigits (n.natAbs + 1) n.natAbs := hc
    rcases List.mem_cons.mp hc2 with h1 | h2
    · exact absurd h1 (by decide)
    · exact natDigits_no_colon _ _ h2
  · rw [if_neg h]
    intro hc
    exact natDigits_no_colon _ _ hc

theorem pairRestP_succ_mem_colon (hex : Char → Bool) (n : Nat) (l : List Char)
    (h : pairRestP hex (n + 1) l = true) : ':' ∈ l := by
  rcases l with _ | ⟨a, _ | ⟨b, _ | ⟨c, l⟩⟩⟩
  · simp [pairRestP] at h
  · simp [pairRestP] at h
  · simp [pairRestP] at h
  · simp only [pairRestP, Bool.and_eq_true, beq_iff_eq] at h
    obtain ⟨⟨⟨ha, hb⟩, hc⟩, hrest⟩ := h
    subst hc
    simp

theorem RE_intStr_false (n : Int) : RE_BT_ADDRESS_match (intStr n) = false := by
  unfold RE_BT_ADDRESS_match
  have h5 : pairRestP isHexB 5 (intStr n).data = false := by
    by_contra hx
    rw [Bool.not_eq_false] at hx
    have hx4 : pairRestP isHexB (4 + 1) (intStr n).data = true := hx
    exact intStr_no_colon n (pairRestP_succ_mem_colon isHexB 4 _ hx4)
  rw [h5]
  simp only [Bool.false_or]
  by_cases hgl : (intStr n).data.getLast? = some '\n'
  · rw [if_pos hgl]
    by_contra hx
    rw [Bool.not_eq_false] at hx
    have hx4 : pairRestP isHexB (4 + 1) (intStr n).data.dropLast = true := hx
    have hmem := pairRestP_succ_mem_colon isHexB 4 _ hx4
    have hdecomp := getLast?_decomp hgl
    exact intStr_no_colon n (by rw [hdecomp]; exact List.mem_append_left _ hmem)
  · rw [if_neg hgl]

/-- Counterexample to claim C9: `"11:22:33:44:55:66\n"` is not a string of
six colon-separated hex byte pairs (a trailing newline makes it the wrong
shape), yet the validator accepts it — the pattern's un-flagged `$` also
matches just before a single final newline — and returns it (uppercased,
here unchanged) instead of failing with `InvalidAddress`. -/
theorem BluetoothAddress_newline_cex :
    ¬ SixHexPairs ("11:22:33:44:55:66\n" : String).data ∧
    BluetoothAddress_call (.ofStr "11:22:33:44:55:66\n") =
      .ok "11:22:33:44:55:66\n" := by
  constructor
  · intro h
    have h17 := sixHexPairs_length h
    have h18 : ("11:22:33:44:55:66\n" : String).data.length = 18 := rfl
    omega
  · rfl

/-- Claim C9 amended: the validator fails with `InvalidAddress` exactly for
the inputs whose string form is neither six colon-separated hex byte pairs
nor six such pairs followed by one final newline (the one extra shape the
pattern's `$` admits); in particular every integer input fails. -/
theorem BluetoothAddress_call_invalid (v : PyVal)
    (h : ¬ SixHexPairsNL (pyStr v).data) :
    BluetoothAddress_call v = .error .InvalidAddress ∧
    (∀ n : Int, BluetoothAddress_call (.ofInt n) = .error .InvalidAddress) := by
  constructor
  · unfold BluetoothAddress_call
    have hre : RE_BT_ADDRESS_match (pyStr v) = false := by
      by_contra hx
      rw [Bool.not_eq_false] at hx
      apply h
      unfold RE_BT_ADDRESS_match at hx
      simp only [Bool.or_eq_true] at hx
      rcases hx with h1 | h2
      · exact Or.inl (sixHexPairs_of_pairRest h1)
      · by_cases hgl : (pyStr v).data.getLast? = some '\n'
        · rw [if_pos hgl] at h2
          exact Or.inr ⟨(pyStr v).data.dropLast, getLast?_decomp hgl,
            sixHexPairs_of_pairRest h2⟩
        · rw [if_neg hgl] at h2
          exact absurd h2 (by simp)
    simp [hre]
  · intro m
    unfold BluetoothAddress_call
    simp [pyStr, RE_intStr_false m]

/-- Witness for the amended C9: the integer input `0` from the source's own
test table is rejected with `InvalidAddress`. -/
theorem BluetoothAddress_call_invalid_witness :
    (¬ SixHexPairsNL (pyStr (PyVal.ofInt 0)).data) ∧
    BluetoothAddress_call (PyVal.ofInt 0) = .error .InvalidAddress := by
  have hdata : (pyStr (PyVal.ofInt 0)).data = ['0'] := rfl
  have hno : ¬ SixHexPairsNL (pyStr (PyVal.ofInt 0)).data := by
    rintro (h | ⟨l0, hl, h⟩)
    · have h17 := sixHexPairs_length h
      rw [hdata] at h17
      simp at h17
    · rw [hdata] at hl
      rcases l0 with _ | ⟨x, l0⟩
      · simp at hl
      · simp only [List.cons_append, List.cons.injEq] at hl
        obtain ⟨rfl, hl2⟩ := hl
        exact absurd hl2.symm (by simp)
  exact ⟨hno, (BluetoothAddress_call_invalid (PyVal.ofInt 0) hno).1⟩
